import Mathlib

/-! ## Verification of the newsbot digest pipeline

A shallow embedding of the core of the `newsbot` repository
(`rss_daily_summary.py` and `news_api.py`): deduplicated ingestion into the
item store (`news_log.json`), 7-day window selection for the weekly digest,
HMAC-SHA256 unsubscribe tokens, footer personalisation, subscriber-store
operations, and the delivery loop.

Conventions of the embedding:
* Python `str` is Lean `String`; byte strings are `List Nat` with every
  entry `< 256`; 32-bit arithmetic is `Nat` with explicit `% 2 ^ 32`.
* Code that raises (`requests.get(...).raise_for_status()`,
  `hmac.compare_digest` on non-ASCII `str`) returns `Except`.
* External collaborators (the fetched feed, the SMTP send) enter as
  parameters: a fetch result `Except FetchErr (List Entry)` and a
  per-address outcome `sendOk : String → Bool`.
* `str.lower` is modelled on the ASCII range (`Char.toLower`), which covers
  every value the code handles (emails, feed text are treated bytewise).
-/

namespace NewsBot

/-! ## String primitives shared by several components -/

/-- ASCII whitespace, the set `str.strip` / `\s` act on here. -/
def isSpaceChar (c : Char) : Bool :=
  c == ' ' || c == '\t' || c == '\n' || c == '\r' || c == '\x0b' || c == '\x0c'

/-- Python `str.lower` (ASCII range). -/
def lowerStr (s : String) : String :=
  ⟨s.data.map Char.toLower⟩

/-- Python `str.strip()`: drop leading and trailing whitespace. -/
def stripStr (s : String) : String :=
  ⟨((s.data.dropWhile isSpaceChar).reverse.dropWhile isSpaceChar).reverse⟩

/-- Does `l` start with `p`? (helper for substring search and replace). -/
def startsWithL : List Char → List Char → Bool
  | _, [] => true
  | [], _ :: _ => false
  | a :: as, b :: bs => a == b && startsWithL as bs

/-- Python `pat in s` (substring containment). -/
def containsSub : List Char → List Char → Bool
  | [], pat => startsWithL [] pat
  | s@(_ :: t), pat => startsWithL s pat || containsSub t pat

/-- Python `s.replace(pat, rep)`: replace every non-overlapping occurrence,
scanning left to right.  `fuel` bounds the recursion by the input length. -/
def replaceAllAux (pat rep : List Char) : Nat → List Char → List Char
  | _, [] => []
  | 0, s => s
  | fuel + 1, s@(c :: t) =>
      if startsWithL s pat ∧ pat ≠ [] then
        rep ++ replaceAllAux pat rep fuel (s.drop pat.length)
      else
        c :: replaceAllAux pat rep fuel t

/-- Python `s.replace(pat, rep)` on `String`. -/
def replaceAll (s pat rep : String) : String :=
  ⟨replaceAllAux pat.data rep.data s.data.length s.data⟩

/-- Lexicographic strict order on character lists by code point — Python
`str` comparison. -/
def charListLt : List Char → List Char → Bool
  | [], [] => false
  | [], _ :: _ => true
  | _ :: _, [] => false
  | a :: as, b :: bs => if a == b then charListLt as bs else decide (a.toNat < b.toNat)

/-- Lexicographic `≤` on character lists by code point. -/
def charListLe : List Char → List Char → Bool
  | [], _ => true
  | _ :: _, [] => false
  | a :: as, b :: bs => if a == b then charListLe as bs else decide (a.toNat < b.toNat)

/-- Python `a < b` on strings. -/
def strLtB (a b : String) : Bool :=
  charListLt a.data b.data

/-- Python `a <= b` on strings. -/
def strLeB (a b : String) : Bool :=
  charListLe a.data b.data

/-- Is every character ASCII?  (`str.isascii`, the precondition of
`hmac.compare_digest` on `str` arguments.) -/
def isAsciiStr (s : String) : Bool :=
  s.data.all (fun c => c.toNat < 128)

/-- UTF-8 encoding of one character (`str.encode`). -/
def utf8Char (c : Char) : List Nat :=
  let n := c.toNat
  if n < 0x80 then [n]
  else if n < 0x800 then
    [0xC0 ||| (n >>> 6), 0x80 ||| (n &&& 0x3F)]
  else if n < 0x10000 then
    [0xE0 ||| (n >>> 12), 0x80 ||| ((n >>> 6) &&& 0x3F), 0x80 ||| (n &&& 0x3F)]
  else
    [0xF0 ||| (n >>> 18), 0x80 ||| ((n >>> 12) &&& 0x3F),
     0x80 ||| ((n >>> 6) &&& 0x3F), 0x80 ||| (n &&& 0x3F)]

/-- UTF-8 encoding of a string (`str.encode()`), as bytes. -/
def utf8Encode (s : String) : List Nat :=
  s.data.flatMap utf8Char

/-! ## SHA-256 (`hashlib.sha256`) on byte lists -/

/-- Rotate a 32-bit word right by `n`. -/
def rotr32 (n x : Nat) : Nat :=
  ((x >>> n) ||| (x <<< (32 - n))) % 2 ^ 32

/-- Small sigma-0 of the SHA-256 message schedule. -/
def smallSig0 (x : Nat) : Nat := (rotr32 7 x) ^^^ (rotr32 18 x) ^^^ (x >>> 3)

/-- Small sigma-1 of the SHA-256 message schedule. -/
def smallSig1 (x : Nat) : Nat := (rotr32 17 x) ^^^ (rotr32 19 x) ^^^ (x >>> 10)

/-- Big sigma-0 of the SHA-256 compression function. -/
def bigSig0 (x : Nat) : Nat := (rotr32 2 x) ^^^ (rotr32 13 x) ^^^ (rotr32 22 x)

/-- Big sigma-1 of the SHA-256 compression function. -/
def bigSig1 (x : Nat) : Nat := (rotr32 6 x) ^^^ (rotr32 11 x) ^^^ (rotr32 25 x)

/-- SHA-256 `Ch`, with complement as xor against the 32-bit mask. -/
def chFun (x y z : Nat) : Nat := (x &&& y) ^^^ ((x ^^^ 4294967295) &&& z)

/-- SHA-256 `Maj`. -/
def majFun (x y z : Nat) : Nat := (x &&& y) ^^^ (x &&& z) ^^^ (y &&& z)

/-- The 64 SHA-256 round constants of FIPS 180-4, written in decimal. -/
def K256 : List Nat :=
  [1116352408, 1899447441, 3049323471, 3921009573, 961987163, 1508970993,
   2453635748, 2870763221, 3624381080, 310598401, 607225278, 1426881987,
   1925078388, 2162078206, 2614888103, 3248222580, 3835390401, 4022224774,
   264347078, 604807628, 770255983, 1249150122, 1555081692, 1996064986,
   2554220882, 2821834349, 2952996808, 3210313671, 3336571891, 3584528711,
   113926993, 338241895, 666307205, 773529912, 1294757372, 1396182291,
   1695183700, 1986661051, 2177026350, 2456956037, 2730485921, 2820302411,
   3259730800, 3345764771, 3516065817, 3600352804, 4094571909, 275423344,
   430227734, 506948616, 659060556, 883997877, 958139571, 1322822218,
   1537002063, 1747873779, 1955562222, 2024104815, 2227730452, 2361852424,
   2428436474, 2756734187, 3204031479, 3329325298]

/-- Split a byte list into chunks of `n`, by fuel on its length. -/
def chunkAux (n : Nat) : Nat → List Nat → List (List Nat)
  | 0, _ => []
  | _ + 1, [] => []
  | fuel + 1, l => l.take n :: chunkAux n fuel (l.drop n)

/-- Split a byte list into chunks of `n`. -/
def chunks (n : Nat) (l : List Nat) : List (List Nat) :=
  chunkAux n l.length l

/-- A 4-byte big-endian group as a 32-bit word. -/
def beWord : List Nat → Nat
  | [a, b, c, d] => ((a * 256 + b) * 256 + c) * 256 + d
  | _ => 0

/-- Extend the 16 block words to the 64-entry message schedule. -/
def extendSchedule : Nat → List Nat → List Nat
  | 0, ws => ws
  | fuel + 1, ws =>
      let t := ws.length
      let w := (smallSig1 (ws.getD (t - 2) 0) + ws.getD (t - 7) 0 +
                smallSig0 (ws.getD (t - 15) 0) + ws.getD (t - 16) 0) % 2 ^ 32
      extendSchedule fuel (ws ++ [w])

/-- The eight 32-bit words of SHA-256 working state. -/
structure Hash8 where
  a : Nat
  b : Nat
  c : Nat
  d : Nat
  e : Nat
  f : Nat
  g : Nat
  h : Nat

/-- One SHA-256 round. -/
def compressStep (st : Hash8) (kw : Nat × Nat) : Hash8 :=
  let t1 := (st.h + bigSig1 st.e + chFun st.e st.f st.g + kw.1 + kw.2) % 2 ^ 32
  let t2 := (bigSig0 st.a + majFun st.a st.b st.c) % 2 ^ 32
  ⟨(t1 + t2) % 2 ^ 32, st.a, st.b, st.c, (st.d + t1) % 2 ^ 32, st.e, st.f, st.g⟩

/-- Compress one 64-byte block into the running state. -/
def compressBlock (st : Hash8) (block : List Nat) : Hash8 :=
  let ws := extendSchedule 48 ((chunks 4 block).map beWord)
  let fin := (K256.zip ws).foldl compressStep st
  ⟨(st.a + fin.a) % 2 ^ 32, (st.b + fin.b) % 2 ^ 32, (st.c + fin.c) % 2 ^ 32,
   (st.d + fin.d) % 2 ^ 32, (st.e + fin.e) % 2 ^ 32, (st.f + fin.f) % 2 ^ 32,
   (st.g + fin.g) % 2 ^ 32, (st.h + fin.h) % 2 ^ 32⟩

/-- The SHA-256 initial state of FIPS 180-4, written in decimal. -/
def initH : Hash8 :=
  ⟨1779033703, 3144134277, 1013904242, 2773480762,
   1359893119, 2600822924, 528734635, 1541459225⟩

/-- The big-endian bytes of the 64-bit message bit length. -/
def lenBytes (n : Nat) : List Nat :=
  [(n >>> 56) % 256, (n >>> 48) % 256, (n >>> 40) % 256, (n >>> 32) % 256,
   (n >>> 24) % 256, (n >>> 16) % 256, (n >>> 8) % 256, n % 256]

/-- The big-endian bytes of one 32-bit state word. -/
def wordBytes (w : Nat) : List Nat :=
  [(w >>> 24) % 256, (w >>> 16) % 256, (w >>> 8) % 256, w % 256]

/-- Serialize the final state into the 32 digest bytes. -/
def stateBytes (st : Hash8) : List Nat :=
  wordBytes st.a ++ wordBytes st.b ++ wordBytes st.c ++ wordBytes st.d ++
  wordBytes st.e ++ wordBytes st.f ++ wordBytes st.g ++ wordBytes st.h

/-- SHA-256 of a byte string (`hashlib.sha256(msg).digest()`). -/
def sha256 (msg : List Nat) : List Nat :=
  let padded := msg ++ 0x80 :: List.replicate ((64 - (msg.length + 9) % 64) % 64) 0
                    ++ lenBytes (8 * msg.length)
  stateBytes ((chunks 64 padded).foldl compressBlock initH)

/-- HMAC-SHA256 (`hmac.new(key, msg, hashlib.sha256).digest()`), including
the key-shortening step for keys longer than the 64-byte block size. -/
def hmacSha256 (key msg : List Nat) : List Nat :=
  let key1 := if key.length > 64 then sha256 key else key
  let key2 := key1 ++ List.replicate (64 - key1.length) 0
  sha256 ((key2.map (fun b => b ^^^ 0x5c)) ++
          sha256 ((key2.map (fun b => b ^^^ 0x36)) ++ msg))

/-- The 16 lowercase hex digits. -/
def hexChars : List Char :=
  "0123456789abcdef".data

/-- The hex digit for a nibble. -/
def hexChar (n : Nat) : Char :=
  hexChars.getD n '0'

/-- Lowercase hex of a byte string (`.hexdigest()`). -/
def toHexL (bs : List Nat) : List Char :=
  bs.flatMap (fun b => [hexChar (b / 16), hexChar (b % 16)])

/-! ## Token service (`make_token` / `check_token`, `news_api.py` lines 51–58
and `rss_daily_summary.py` lines 516–522).  Both definitions compute
`hmac.new(secret.encode(), email.lower().encode(), hashlib.sha256)`; the
secret (`SUB_SECRET`, default `"change-me-please"`) is passed explicitly. -/

/-- Python `make_token(email)`: hex HMAC-SHA256 of the lowercased email under the
process secret. -/
def make_token (secret email : String) : String :=
  ⟨toHexL (hmacSha256 (utf8Encode secret) (utf8Encode (lowerStr email)))⟩

/-- Python `hmac.compare_digest(a, b)` on `str` arguments: constant-time equality,
but a `TypeError` when either side is non-ASCII. -/
def compare_digest (a b : String) : Except String Bool :=
  if isAsciiStr a && isAsciiStr b then .ok (a == b) else .error "TypeError"

/-- Python `check_token(email, token)`: recompute the expected token and compare. -/
def check_token (secret email token : String) : Except String Bool :=
  compare_digest (make_token secret email) token

/-! ## Ingestion stage (`fetch_rss_items` and `daily_collect`,
`rss_daily_summary.py` lines 103–172) -/

/-- One stored item of the Item Store (`news_log.json`). -/
structure Item where
  date : String
  title : String
  url : String
  snippet : String
deriving DecidableEq, Repr

/-- One raw feed entry as exposed by the feed collaborator
(`feedparser` entry: `title`, `link`, `summary`, `description`). -/
structure Entry where
  title : Option String
  link : Option String
  summary : Option String
  description : Option String
deriving DecidableEq, Repr

/-- Python `a or b` for an optional string: `None` and `""` fall through. -/
def pyOr (a : Option String) (b : String) : String :=
  match a with
  | some s => if s == "" then b else s
  | none => b

/-- The per-day item cap `MAX_ARTICLES`. -/
def MAX_ARTICLES : Nat := 10

/-- The keyword relevance vocabulary of `fetch_rss_items`. -/
def KEYWORDS : List String :=
  ["health", "medical", "pharma", "biotech", "life science", "hospital",
   "digital health", "telemedicine", "ai", "machine learning", "data",
   "healthcare", "medtech", "drug", "research", "clinical", "technology"]

/-- Replace every regex match of `<[^>]+>` by a single space: at `<`, a
maximal run of at least one non-`>` character closed by `>` is one match.
`fuel` bounds the recursion by the input length. -/
def stripTagsAux : Nat → List Char → List Char
  | 0, s => s
  | _ + 1, [] => []
  | fuel + 1, c :: t =>
      if c == '<' then
        let inside := t.takeWhile (fun d => d ≠ '>')
        let rest := t.dropWhile (fun d => d ≠ '>')
        match rest with
        | '>' :: after =>
            if inside ≠ [] then ' ' :: stripTagsAux fuel after
            else c :: stripTagsAux fuel t
        | _ => c :: stripTagsAux fuel t
      else c :: stripTagsAux fuel t

/-- Python `re.sub(r"<[^>]+>", " ", s)`. -/
def stripTags (s : String) : String :=
  ⟨stripTagsAux s.data.length s.data⟩

/-- Collapse each whitespace run into one space (`re.sub(r"\s+", " ", s)`).
`fuel` bounds the recursion by the input length. -/
def collapseWsAux : Nat → List Char → List Char
  | 0, s => s
  | _ + 1, [] => []
  | fuel + 1, c :: t =>
      if isSpaceChar c then ' ' :: collapseWsAux fuel (t.dropWhile isSpaceChar)
      else c :: collapseWsAux fuel t

/-- Python `re.sub(r"\s+", " ", s)` on `String`. -/
def collapseWs (s : String) : String :=
  ⟨collapseWsAux s.data.length s.data⟩

/-- Does the entry pass the keyword relevance filter? -/
def keywordHit (e : Entry) : Bool :=
  let title := lowerStr (pyOr e.title "")
  let summary := lowerStr (pyOr e.summary (pyOr e.description ""))
  KEYWORDS.any (fun k => containsSub title.data k.data || containsSub summary.data k.data)

/-- Build the stored item a surviving entry becomes, dated `today`;
`none` when title or link is empty. -/
def entryToItem (today : String) (e : Entry) : Option Item :=
  let title := stripStr (pyOr e.title "Untitled")
  let link := pyOr e.link ""
  let desc := pyOr e.summary (pyOr e.description "")
  let snippet := stripStr (collapseWs (stripTags desc))
  if title == "" || link == "" then none
  else some ⟨today, title, link, snippet⟩

/-- Python `fetch_rss_items`: keyword-filter the fetched entries, normalise each
one into an `Item` dated `today`, and cap the batch at `MAX_ARTICLES`. -/
def fetch_rss_items (today : String) (entries : List Entry) : List Item :=
  ((entries.filter keywordHit).filterMap (entryToItem today)).take MAX_ARTICLES

/-- A feed fetch failure (network error or non-2xx status raised by
`requests.get` / `raise_for_status`). -/
structure FetchErr where
  msg : String
deriving DecidableEq, Repr

/-- Python `daily_collect`, run for day `today` over store `db`, with the outcome
of the external fetch passed in.  Returns the resulting store and either
the count of items appended or the propagated fetch error.  The early
returns of the Python function ("already have N entries", "no new items")
are the `(db, .ok 0)` cases. -/
def daily_collect (today : String) (db : List Item)
    (fetched : Except FetchErr (List Item)) : List Item × Except FetchErr Nat :=
  let today_entries := db.filter (fun d => d.date == today)
  if today_entries.length ≥ MAX_ARTICLES then (db, .ok 0)
  else
    match fetched with
    | .error e => (db, .error e)
    | .ok new_items =>
        let existing_urls := db.map (fun d => d.url)
        let added := new_items.filter (fun i => !(existing_urls.contains i.url))
        let available_slots := MAX_ARTICLES - today_entries.length
        if available_slots ≤ 0 then (db, .ok 0)
        else
          let final_to_add := added.take available_slots
          if final_to_add.isEmpty then (db, .ok 0)
          else (db ++ final_to_add, .ok final_to_add.length)

/-! ## Aggregation stage: window selection of `weekly_digest`
(`rss_daily_summary.py` lines 242–264) -/

/-- A calendar date, as `datetime` holds it. -/
structure Date where
  year : Nat
  month : Nat
  day : Nat
deriving DecidableEq, Repr

/-- Gregorian leap-year rule. -/
def isLeap (y : Nat) : Bool :=
  (y % 4 == 0 && y % 100 != 0) || y % 400 == 0

/-- Days in a month. -/
def daysInMonth (y m : Nat) : Nat :=
  if m == 2 then (if isLeap y then 29 else 28)
  else if m == 4 || m == 6 || m == 9 || m == 11 then 30
  else 31

/-- The previous calendar day. -/
def prevDay (d : Date) : Date :=
  if d.day > 1 then ⟨d.year, d.month, d.day - 1⟩
  else if d.month > 1 then ⟨d.year, d.month - 1, daysInMonth d.year (d.month - 1)⟩
  else ⟨d.year - 1, 12, 31⟩

/-- Python `now - datetime.timedelta(days = n)` on the date part. -/
def subDays (n : Nat) (d : Date) : Date :=
  Nat.rec d (fun _ acc => prevDay acc) n

/-- Decimal digits of `n`, zero-padded to width `w` (`strftime` padding). -/
def padNum (w n : Nat) : String :=
  let s := toString n
  ⟨List.replicate (w - s.data.length) '0' ++ s.data⟩

/-- Python `strftime("%Y-%m-%d")`. -/
def fmtDate (d : Date) : String :=
  padNum 4 d.year ++ "-" ++ padNum 2 d.month ++ "-" ++ padNum 2 d.day

/-- Stable insertion of an item into a date-sorted list: the new element
goes after every element whose date is `≤` its own, so equal dates keep
their original relative order (Python `list.sort` is stable). -/
def insertByDate (x : Item) : List Item → List Item
  | [] => [x]
  | y :: ys => if strLeB y.date x.date then y :: insertByDate x ys else x :: y :: ys

/-- Stable sort ascending by `date` (`week_items.sort(key = lambda x: x["date"])`). -/
def sortByDate (l : List Item) : List Item :=
  l.foldl (fun acc x => insertByDate x acc) []

/-- The digest item selection of `weekly_digest`, run at date `now`: keep
the store entries whose date string lies in `[start_date, end_date]`
(string comparison of `%Y-%m-%d` stamps, both ends inclusive, with
`start_date = now - 7 days`), sorted ascending by date. -/
def weekly_digest_selection (now : Date) (db : List Item) : List Item :=
  let start_date := fmtDate (subDays 7 now)
  let end_date := fmtDate now
  sortByDate (db.filter (fun d => strLeB start_date d.date && strLeB d.date end_date))

/-! ## Unsubscribe footer (`add_unsubscribe_footer`,
`rss_daily_summary.py` lines 656–680) -/

/-- The 16 uppercase hex digits (`urllib.parse` percent escapes). -/
def hexCharsUpper : List Char :=
  "0123456789ABCDEF".data

/-- Is the byte in the always-safe set of `urllib` (letters, digits, `_.-~`)? -/
def isUrlSafe (b : Nat) : Bool :=
  (0x41 ≤ b && b ≤ 0x5A) || (0x61 ≤ b && b ≤ 0x7A) || (0x30 ≤ b && b ≤ 0x39) ||
  b == 0x5F || b == 0x2E || b == 0x2D || b == 0x7E

/-- Python `urllib.parse.quote_plus` on one UTF-8 byte: safe bytes stay, space
becomes `+`, the rest become `%XX`. -/
def quoteByte (b : Nat) : List Char :=
  if isUrlSafe b then [Char.ofNat b]
  else if b == 0x20 then ['+']
  else ['%', hexCharsUpper.getD (b / 16) '0', hexCharsUpper.getD (b % 16) '0']

/-- Python `urllib.parse.quote_plus` of a string. -/
def quotePlus (s : String) : String :=
  ⟨(utf8Encode s).flatMap quoteByte⟩

/-- Python `urlencode` of the email and token query pairs. -/
def urlencodeEmailToken (e t : String) : String :=
  "email=" ++ quotePlus e ++ "&token=" ++ quotePlus t

/-- Python `add_unsubscribe_footer(html_body, email_addr)`: build the personalised
footer (which itself ends in `</body></html>`) and splice it in by
replacing `</body>` when present, else appending. -/
def add_unsubscribe_footer (secret : String) (html_body email_addr : String) : String :=
  let token := make_token secret email_addr
  let query := urlencodeEmailToken email_addr token
  let unsubscribe_url := "http://newsweeklydigest.duckdns.org/unsubscribe?" ++ query
  let footer_html :=
    "\n    <hr style=\"border:none;border-top:1px solid #ddd;margin:30px 0;\">\n    <div style=\"font-size:13px;color:#555;text-align:center;line-height:1.4;\">\n      Youâ€™re receiving this because you subscribed to the\n      <b>HCLS Weekly Digest</b>.<br>\n      <a href=\"" ++
    unsubscribe_url ++
    "\"\n         style=\"color:#2563eb;text-decoration:none;\">Unsubscribe</a> anytime.\n    </div>\n    </body></html>\n    "
  if containsSub html_body.data "</body>".data then
    replaceAll html_body "</body>" footer_html
  else
    html_body ++ footer_html

/-! ## Subscriber store (`news_api.py` lines 41–141) -/

/-- Ordered duplicate-dropping insertion: the building block of
`sorted(set(lst))`. -/
def insOrd (a : String) : List String → List String
  | [] => [a]
  | b :: bs =>
      if strLtB a b then a :: b :: bs
      else if a == b then b :: bs
      else b :: insOrd a bs

/-- Python `save_subs(lst)` writes `sorted(set(lst))`: the strictly ascending list
of the distinct members of `lst`. -/
def save_subs (lst : List String) : List String :=
  lst.foldr insOrd []

/-- Python `list.remove(x)`: drop the first occurrence. -/
def removeFirst : List String → String → List String
  | [], _ => []
  | y :: ys, x => if y == x then ys else y :: removeFirst ys x

/-- Route `POST /subscribe`: normalise the payload email, reject when empty or
missing `@`, append-and-save when new.  The `Bool` is request success. -/
def subscribe (store : List String) (payload : Option String) : List String × Bool :=
  let email := lowerStr (stripStr (payload.getD ""))
  if email == "" || !(email.data.contains '@') then (store, false)
  else if store.contains email then (store, true)
  else (save_subs (store ++ [email]), true)

/-- The HTTP outcome of `GET /unsubscribe`. -/
inductive UnsubResult where
  | badRequest
  | forbidden
  | serverError
  | removed
  | notFound
deriving DecidableEq, Repr

/-- Route `GET /unsubscribe`: 400 on a missing/empty email or token, 403 when the
token fails verification, a propagated `TypeError` (HTTP 500) when
`compare_digest` rejects the argument, removal plus save on success, 404
when the email is not stored. -/
def unsubscribeOp (secret : String) (store : List String)
    (emailArg tokenArg : Option String) : List String × UnsubResult :=
  let email := lowerStr (stripStr (emailArg.getD ""))
  let token := tokenArg.getD ""
  if email == "" || token == "" then (store, .badRequest)
  else
    match check_token secret email token with
    | .error _ => (store, .serverError)
    | .ok false => (store, .forbidden)
    | .ok true =>
        if store.contains email then (save_subs (removeFirst store email), .removed)
        else (store, .notFound)

/-- The `add=` branch of `GET /list-subscribers` (after the admin-token
gate): validate, then append-and-save when new. -/
def admin_add (store : List String) (arg : Option String) : List String :=
  let add_email := lowerStr (stripStr (arg.getD ""))
  if add_email == "" then store
  else if !(add_email.data.contains '@') then store
  else if !(store.contains add_email) then save_subs (store ++ [add_email])
  else store

/-- The `remove=` branch of `GET /list-subscribers`. -/
def admin_remove (store : List String) (arg : Option String) : List String :=
  let remove_email := lowerStr (stripStr (arg.getD ""))
  if remove_email == "" then store
  else if store.contains remove_email then save_subs (removeFirst store remove_email)
  else store

/-- One subscriber-store operation of the public/admin surface. -/
inductive SubOp where
  | sub (payload : Option String)
  | unsub (secret : String) (emailArg tokenArg : Option String)
  | adminAdd (arg : Option String)
  | adminRemove (arg : Option String)

/-- The store after one operation. -/
def applyOp (store : List String) : SubOp → List String
  | .sub p => (subscribe store p).1
  | .unsub s e t => (unsubscribeOp s store e t).1
  | .adminAdd a => admin_add store a
  | .adminRemove a => admin_remove store a

/-- The store after a sequence of operations. -/
def runOps (store : List String) (ops : List SubOp) : List String :=
  ops.foldl applyOp store

/-! ## Delivery stage (`ensure_subscribers`, `send_email_html`,
`send_weekly_email_if_monday`, `rss_daily_summary.py` lines 65–73 and
576–697).  The SMTP collaborator enters as `sendOk : String → Bool`, the
per-address outcome of `smtplib` (the `try/except` around `sendmail`). -/

/-- The `DEFAULT_SUBSCRIBERS` constant. -/
def DEFAULT_SUBSCRIBERS : String := "fernandez.luisdiego@gmail.com"

/-- Python `s.split(",")`. -/
def splitCommaAux : List Char → List Char → List String
  | acc, [] => [⟨acc.reverse⟩]
  | acc, c :: t =>
      if c == ',' then ⟨acc.reverse⟩ :: splitCommaAux [] t
      else splitCommaAux (c :: acc) t

/-- Python `s.split(",")` on `String`. -/
def splitComma (s : String) : List String :=
  splitCommaAux [] s.data

/-- Python `ensure_subscribers()`: seed the default list when the stored list is
empty.  Returns `(store after, subscriber list used)`. -/
def ensure_subscribers (store : List String) : List String × List String :=
  if store.isEmpty then
    let seeded := ((splitComma DEFAULT_SUBSCRIBERS).map stripStr).filter (fun e => !(e == ""))
    if !seeded.isEmpty then (seeded, seeded) else (store, store)
  else (store, store)

/-- Python `send_email_html(to_list, ...)`: one send attempt per recipient, each
guarded by its own `try/except`, so every address is attempted and the
outcome is per-address.  The subscriber store is never read or written. -/
def send_email_html (sendOk : String → Bool) (to_list : List String) :
    List (String × Bool) :=
  to_list.map (fun addr => (addr, sendOk addr))

/-- Python `send_weekly_email_if_monday`: load (and possibly seed) the subscriber
list, then send one personalised email per subscriber.  Returns the store
after the run and the per-address outcomes. -/
def send_weekly_email (sendOk : String → Bool) (store : List String) :
    List String × List (String × Bool) :=
  let p := ensure_subscribers store
  (p.1, p.2.flatMap (fun addr => send_email_html sendOk [addr]))

/-! ## Concrete inputs used by witnesses and counterexamples -/

/-- Decidable equality for `Except`, by hand so that `decide` reduces. -/
instance {ε α : Type} [DecidableEq ε] [DecidableEq α] : DecidableEq (Except ε α) :=
  fun a b =>
    match a, b with
    | .ok x, .ok y =>
        if h : x = y then .isTrue (congrArg Except.ok h)
        else .isFalse (fun he => h (Except.ok.inj he))
    | .ok _, .error _ => .isFalse (fun he => Except.noConfusion he)
    | .error _, .ok _ => .isFalse (fun he => Except.noConfusion he)
    | .error x, .error y =>
        if h : x = y then .isTrue (congrArg Except.error h)
        else .isFalse (fun he => h (Except.error.inj he))

/-- The item stored for day `2025-01-n` in the window-selection scenario. -/
def itemOfDay (n : Nat) : Item :=
  ⟨"2025-01-" ++ padNum 2 n, "title " ++ toString n, "http://example.com/" ++ toString n, "snip"⟩

/-- An item store holding one item per day for 2025-01-01 .. 2025-01-10. -/
def storeJan : List Item :=
  (List.range 10).map (fun i => itemOfDay (i + 1))

/-- Two feed entries that differ but share one URL. -/
def dupEntryA : Entry :=
  ⟨some "health story one", some "http://example.com/dup", some "summary one", none⟩

/-- The second entry with the same URL. -/
def dupEntryB : Entry :=
  ⟨some "health story two", some "http://example.com/dup", some "summary two", none⟩

/-- A store already holding `MAX_ARTICLES` items dated 2025-01-01. -/
def capDb : List Item :=
  (List.range 10).map (fun i => ⟨"2025-01-01", "t" ++ toString i, "http://u/" ++ toString i, "s"⟩)

/-- A fresh item the feed could offer once the cap is reached. -/
def freshItem : Item := ⟨"2025-01-01", "t new", "http://u/new", "s"⟩

/-- A send outcome that fails exactly for `b@x.com`. -/
def failB (addr : String) : Bool := !(addr == "b@x.com")

/-- The little-endian base-256 value of a digest, used to map digests into
a finite type for the pigeonhole argument. -/
def digestVal : List Nat → Nat
  | [] => 0
  | b :: bs => b + 256 * digestVal bs

/-- The candidate secrets of the pigeonhole argument: `n+1` copies of `a`. -/
def secretN (n : Nat) : String :=
  ⟨List.replicate (n + 1) 'a'⟩

/-- The raw HMAC digest behind `make_token` (before hex encoding). -/
def tokenDigest (s e : String) : List Nat :=
  hmacSha256 (utf8Encode s) (utf8Encode (lowerStr e))

/-- The store invariant `save_subs` establishes: strictly ascending in the
code-point order that the Python `sorted` builtin uses (hence duplicate-free). -/
abbrev SortedSubs (l : List String) : Prop :=
  l.Pairwise (fun a b => strLtB a b = true)

/-- A one-item store for the dedup witness. -/
def dbW : List Item := [⟨"2025-01-01", "t0", "http://u/0", "s"⟩]

/-- A fetched batch offering one new URL and one URL already stored. -/
def itemsW : List Item :=
  [⟨"2025-01-01", "t1", "http://u/1", "s"⟩, ⟨"2025-01-01", "t2", "http://u/0", "s"⟩]

/-- A concrete operation sequence for the subscriber-store witness. -/
def opsW : List SubOp :=
  [.sub (some "B@X.com"), .adminAdd (some "a@x.com"), .sub (some " b@x.com "),
   .adminRemove (some "missing@x.com")]

/-! ## Helper lemmas -/

set_option maxRecDepth 100000
set_option maxHeartbeats 2000000

lemma hexChar_toNat_lt (n : Nat) : (hexChar n).toNat < 128 := by
  have hdef : hexChar n = hexChars.getD n '0' := rfl
  rw [hdef, List.getD_eq_getElem?_getD]
  rcases h : hexChars[n]? with _ | c
  · decide
  · have hc : c ∈ hexChars := List.getElem?_mem h
    simp only [Option.getD_some]
    fin_cases hc <;> decide

lemma toHex_ascii (bs : List Nat) : ∀ c ∈ toHexL bs, c.toNat < 128 := by
  intro c hc
  unfold toHexL at hc
  rcases List.mem_flatMap.mp hc with ⟨b, _, hcb⟩
  simp only [List.mem_cons, List.not_mem_nil, or_false] at hcb
  rcases hcb with rfl | rfl <;> exact hexChar_toNat_lt _

lemma make_token_ascii (s e : String) : isAsciiStr (make_token s e) = true := by
  unfold isAsciiStr make_token
  rw [List.all_eq_true]
  intro c hc
  simpa using toHex_ascii _ c hc

lemma check_token_self (s e : String) : check_token s e (make_token s e) = .ok true := by
  unfold check_token compare_digest
  rw [make_token_ascii]
  simp

lemma check_token_of_ne {s1 s2 e : String} (h : make_token s1 e ≠ make_token s2 e) :
    check_token s2 e (make_token s1 e) = .ok false := by
  unfold check_token compare_digest
  rw [make_token_ascii, make_token_ascii]
  simp only [Bool.and_self, if_true, Except.ok.injEq]
  exact beq_eq_false_iff_ne.mpr (fun hh => h hh.symm)

lemma char_toNat_inj {a b : Char} (h : a.toNat = b.toNat) : a = b :=
  Char.eq_of_val_eq (UInt32.ext h)

lemma charListLt_irrefl (l : List Char) : charListLt l l = false := by
  induction l with
  | nil => rfl
  | cons a as ih => simp [charListLt, ih]

lemma strLtB_irrefl (a : String) : strLtB a a = false :=
  charListLt_irrefl _

lemma charListLt_cons {a b : Char} {as bs : List Char} :
    charListLt (a :: as) (b :: bs) = true ↔
      (a = b ∧ charListLt as bs = true) ∨ (a ≠ b ∧ a.toNat < b.toNat) := by
  by_cases hab : a = b
  · subst hab
    simp [charListLt]
  · simp [charListLt, beq_eq_false_iff_ne.mpr hab, hab]

lemma charListLt_total : ∀ {l1 l2 : List Char}, l1 ≠ l2 →
    charListLt l1 l2 = true ∨ charListLt l2 l1 = true := by
  intro l1
  induction l1 with
  | nil =>
    intro l2 h
    cases l2 with
    | nil => exact absurd rfl h
    | cons b bs => left; rfl
  | cons a as ih =>
    intro l2 h
    cases l2 with
    | nil => right; rfl
    | cons b bs =>
      by_cases hab : a = b
      · subst hab
        have hne : as ≠ bs := fun hh => h (by rw [hh])
        rcases ih hne with h1 | h1
        · exact Or.inl (charListLt_cons.mpr (Or.inl ⟨rfl, h1⟩))
        · exact Or.inr (charListLt_cons.mpr (Or.inl ⟨rfl, h1⟩))
      · have hne : a.toNat ≠ b.toNat := fun hh => hab (char_toNat_inj hh)
        rcases Nat.lt_or_ge a.toNat b.toNat with hlt | hge
        · exact Or.inl (charListLt_cons.mpr (Or.inr ⟨hab, hlt⟩))
        · have hlt : b.toNat < a.toNat := Nat.lt_of_le_of_ne hge (fun hh => hne hh.symm)
          exact Or.inr (charListLt_cons.mpr (Or.inr ⟨Ne.symm hab, hlt⟩))

lemma strLtB_total {a b : String} (h : a ≠ b) :
    strLtB a b = true ∨ strLtB b a = true := by
  apply charListLt_total
  exact fun hd => h (congrArg String.mk hd)

lemma charListLt_trans : ∀ {l1 l2 l3 : List Char}, charListLt l1 l2 = true →
    charListLt l2 l3 = true → charListLt l1 l3 = true := by
  intro l1
  induction l1 with
  | nil =>
    intro l2 l3 h12 h23
    cases l2 with
    | nil => exact h23
    | cons b bs =>
      cases l3 with
      | nil => simp [charListLt] at h23
      | cons c cs => rfl
  | cons a as ih =>
    intro l2 l3 h12 h23
    cases l2 with
    | nil => simp [charListLt] at h12
    | cons b bs =>
      cases l3 with
      | nil => simp [charListLt] at h23
      | cons c cs =>
        rcases charListLt_cons.mp h12 with ⟨rfl, t12⟩ | ⟨hab, hlt12⟩ <;>
          rcases charListLt_cons.mp h23 with ⟨rfl, t23⟩ | ⟨hbc, hlt23⟩
        · exact charListLt_cons.mpr (Or.inl ⟨rfl, ih t12 t23⟩)
        · exact charListLt_cons.mpr
            (Or.inr ⟨fun hh => Nat.ne_of_lt (hh ▸ hlt23) rfl, hlt23⟩)
        · exact charListLt_cons.mpr
            (Or.inr ⟨fun hh => Nat.ne_of_lt (hh ▸ hlt12) rfl, hlt12⟩)
        · have hlt : a.toNat < c.toNat := hlt12.trans hlt23
          exact charListLt_cons.mpr
            (Or.inr ⟨fun hh => Nat.ne_of_lt hlt (congrArg Char.toNat hh), hlt⟩)

lemma strLtB_trans {a b c : String} (h1 : strLtB a b = true) (h2 : strLtB b c = true) :
    strLtB a c = true :=
  charListLt_trans h1 h2

lemma mem_insOrd {x a : String} : ∀ {l : List String}, x ∈ insOrd a l ↔ x = a ∨ x ∈ l := by
  intro l
  induction l with
  | nil => simp [insOrd]
  | cons b bs ih =>
    simp only [insOrd]
    by_cases h1 : strLtB a b = true
    · rw [if_pos h1]; simp
    · rw [if_neg h1]
      by_cases h2 : (a == b) = true
      · rw [if_pos h2]
        have hab : a = b := eq_of_beq h2
        subst hab
        simp [List.mem_cons]
      · rw [if_neg h2]
        simp only [List.mem_cons, ih]
        tauto

lemma insOrd_pairwise {a : String} {l : List String} (h : SortedSubs l) :
    SortedSubs (insOrd a l) := by
  induction l with
  | nil => simp [insOrd]
  | cons b bs ih =>
    rcases List.pairwise_cons.mp h with ⟨hb, hbs⟩
    simp only [insOrd]
    by_cases h1 : strLtB a b = true
    · rw [if_pos h1]
      refine List.Pairwise.cons ?_ h
      intro x hx
      rcases List.mem_cons.mp hx with rfl | hx
      · exact h1
      · exact strLtB_trans h1 (hb x hx)
    · rw [if_neg h1]
      by_cases h2 : (a == b) = true
      · rw [if_pos h2]; exact h
      · rw [if_neg h2]
        refine List.Pairwise.cons ?_ (ih hbs)
        intro x hx
        rcases mem_insOrd.mp hx with rfl | hx
        · have hne : x ≠ b := fun hh => absurd (beq_iff_eq.mpr hh) (by simpa using h2)
          rcases strLtB_total hne with hx1 | hx1
          · exact absurd hx1 h1
          · exact hx1
        · exact hb x hx

lemma save_subs_sorted (l : List String) : SortedSubs (save_subs l) := by
  unfold save_subs
  induction l with
  | nil => simp
  | cons a as ih => exact insOrd_pairwise ih

lemma mem_save_subs {x : String} : ∀ {l : List String}, x ∈ save_subs l ↔ x ∈ l := by
  intro l
  unfold save_subs
  induction l with
  | nil => simp
  | cons a as ih => simp [mem_insOrd, ih]

lemma sortedSubs_nodup : ∀ {l : List String}, SortedSubs l → l.Nodup := by
  intro l h
  induction l with
  | nil => simp
  | cons a as ih =>
    rcases List.pairwise_cons.mp h with ⟨ha, has⟩
    refine List.nodup_cons.mpr ⟨?_, ih has⟩
    intro hmem
    have := ha a hmem
    rw [strLtB_irrefl] at this
    cases this

lemma applyOp_shape (store : List String) (op : SubOp) :
    applyOp store op = store ∨ ∃ l, applyOp store op = save_subs l := by
  cases op with
  | sub p =>
    simp only [applyOp, subscribe]
    split
    · exact Or.inl rfl
    · split
      · exact Or.inl rfl
      · exact Or.inr ⟨_, rfl⟩
  | unsub s e t =>
    simp only [applyOp, unsubscribeOp]
    split
    · exact Or.inl rfl
    · split
      · exact Or.inl rfl
      · exact Or.inl rfl
      · split
        · exact Or.inr ⟨_, rfl⟩
        · exact Or.inl rfl
  | adminAdd arg =>
    simp only [applyOp, admin_add]
    split
    · exact Or.inl rfl
    · split
      · exact Or.inl rfl
      · split
        · exact Or.inr ⟨_, rfl⟩
        · exact Or.inl rfl
  | adminRemove arg =>
    simp only [applyOp, admin_remove]
    split
    · exact Or.inl rfl
    · split
      · exact Or.inr ⟨_, rfl⟩
      · exact Or.inl rfl

lemma applyOp_sorted {store : List String} (h : SortedSubs store) (op : SubOp) :
    SortedSubs (applyOp store op) := by
  rcases applyOp_shape store op with hs | ⟨l, hs⟩
  · rw [hs]; exact h
  · rw [hs]; exact save_subs_sorted l

lemma runOps_sorted : ∀ (ops : List SubOp) {store : List String},
    SortedSubs store → SortedSubs (runOps store ops) := by
  intro ops
  induction ops with
  | nil => intro store h; exact h
  | cons op ops ih =>
    intro store h
    exact ih (applyOp_sorted h op)

lemma digestVal_lt : ∀ {l : List Nat}, (∀ x ∈ l, x < 256) →
    digestVal l < 256 ^ l.length := by
  intro l
  induction l with
  | nil => intro _; simp [digestVal]
  | cons b bs ih =>
    intro h
    have hb : b < 256 := h b (List.mem_cons_self _ _)
    have hv : digestVal bs < 256 ^ bs.length := ih (fun x hx => h x (List.mem_cons_of_mem _ hx))
    simp only [digestVal, List.length_cons, pow_succ]
    calc b + 256 * digestVal bs < 256 * (digestVal bs + 1) := by omega
    _ ≤ 256 * 256 ^ bs.length := by
        exact Nat.mul_le_mul_left _ hv
    _ = 256 ^ bs.length * 256 := Nat.mul_comm _ _

lemma digestVal_inj : ∀ {l1 l2 : List Nat}, l1.length = l2.length →
    (∀ x ∈ l1, x < 256) → (∀ x ∈ l2, x < 256) →
    digestVal l1 = digestVal l2 → l1 = l2 := by
  intro l1
  induction l1 with
  | nil =>
    intro l2 hlen _ _ _
    exact (List.length_eq_zero.mp hlen.symm).symm
  | cons b bs ih =>
    intro l2 hlen h1 h2 hv
    cases l2 with
    | nil => simp at hlen
    | cons c cs =>
      have hb : b < 256 := h1 b (List.mem_cons_self _ _)
      have hc : c < 256 := h2 c (List.mem_cons_self _ _)
      simp only [digestVal] at hv
      have hbc : b = c := by
        have hm : (b + 256 * digestVal bs) % 256 = (c + 256 * digestVal cs) % 256 := by
          rw [hv]
        rwa [Nat.add_mul_mod_self_left, Nat.add_mul_mod_self_left,
          Nat.mod_eq_of_lt hb, Nat.mod_eq_of_lt hc] at hm
      subst hbc
      have htail : digestVal bs = digestVal cs := by omega
      have hlen2 : bs.length = cs.length := by simpa using hlen
      have := ih hlen2
        (fun x hx => h1 x (List.mem_cons_of_mem _ hx))
        (fun x hx => h2 x (List.mem_cons_of_mem _ hx)) htail
      rw [this]

lemma wordBytes_lt (w : Nat) : ∀ x ∈ wordBytes w, x < 256 := by
  intro x hx
  simp only [wordBytes, List.mem_cons, List.not_mem_nil, or_false] at hx
  rcases hx with rfl | rfl | rfl | rfl <;> exact Nat.mod_lt _ (by omega)

lemma stateBytes_length (st : Hash8) : (stateBytes st).length = 32 := by
  simp [stateBytes, wordBytes]

lemma stateBytes_lt (st : Hash8) : ∀ x ∈ stateBytes st, x < 256 := by
  intro x hx
  simp only [stateBytes, List.mem_append] at hx
  rcases hx with ((((((h | h) | h) | h) | h) | h) | h) | h <;> exact wordBytes_lt _ x h

lemma sha256_length (m : List Nat) : (sha256 m).length = 32 :=
  stateBytes_length _

lemma sha256_lt (m : List Nat) : ∀ x ∈ sha256 m, x < 256 :=
  stateBytes_lt _

lemma tokenDigest_length (s e : String) : (tokenDigest s e).length = 32 :=
  sha256_length _

lemma tokenDigest_lt (s e : String) : ∀ x ∈ tokenDigest s e, x < 256 :=
  sha256_lt _

lemma make_token_eq_of_digest (s1 s2 e : String)
    (h : tokenDigest s1 e = tokenDigest s2 e) :
    make_token s1 e = make_token s2 e :=
  congrArg (fun d => (⟨toHexL d⟩ : String)) h

lemma secretN_inj : Function.Injective secretN := by
  intro m n h
  have hd : List.replicate (m + 1) 'a' = List.replicate (n + 1) 'a' :=
    congrArg String.data h
  have := congrArg List.length hd
  simp at this
  omega

lemma daily_collect_ok_shape (today : String) (db items : List Item) :
    (daily_collect today db (.ok items)).1 = db ∨
    ∃ k, (daily_collect today db (.ok items)).1 =
      db ++ (items.filter
        (fun i => !((db.map (fun d => d.url)).contains i.url))).take k := by
  simp only [daily_collect]
  by_cases h1 : (List.filter (fun d => d.date == today) db).length ≥ MAX_ARTICLES
  · rw [if_pos h1]; exact Or.inl rfl
  · rw [if_neg h1]
    by_cases h2 : MAX_ARTICLES - (List.filter (fun d => d.date == today) db).length ≤ 0
    · rw [if_pos h2]; exact Or.inl rfl
    · rw [if_neg h2]
      by_cases h3 : ((List.filter
          (fun i => !((List.map (fun d => d.url) db).contains i.url)) items).take
            (MAX_ARTICLES - (List.filter (fun d => d.date == today) db).length)).isEmpty = true
      · rw [if_pos h3]; exact Or.inl rfl
      · rw [if_neg h3]
        exact Or.inr ⟨MAX_ARTICLES - (List.filter (fun d => d.date == today) db).length, rfl⟩

lemma subscribe_first {store : List String} {e : String}
    (hvalid : (lowerStr (stripStr e) == "" ||
      !((lowerStr (stripStr e)).data.contains '@')) = false) :
    (subscribe store (some e)).1 =
      if store.contains (lowerStr (stripStr e)) then store
      else save_subs (store ++ [lowerStr (stripStr e)]) := by
  simp only [subscribe, Option.getD_some]
  rw [if_neg (fun hh => Bool.false_ne_true (hvalid ▸ hh))]
  by_cases hc : store.contains (lowerStr (stripStr e)) = true
  · rw [if_pos hc, if_pos hc]
  · rw [if_neg hc, if_neg hc]

/-! ## Claim theorems -/

/-- C2, as stated by the spec, is false on the code: for the store holding
one item per day over 2025-01-01..2025-01-10 and the run at 2025-01-10, the
selection is NOT exactly the items dated 2025-01-04..2025-01-10 — the code
window `[now - 7 days, now]` is inclusive on both ends and so spans eight
days, also selecting 2025-01-03. -/
theorem weekly_window_claim_false :
    (weekly_digest_selection ⟨2025, 1, 10⟩ storeJan).map (fun i => i.date) ≠
      ["2025-01-04", "2025-01-05", "2025-01-06", "2025-01-07", "2025-01-08",
       "2025-01-09", "2025-01-10"] := by decide

/-- C2 (amended): for the store holding one item per day over
2025-01-01..2025-01-10, the aggregation run at 2025-01-10 selects exactly
the items dated 2025-01-03..2025-01-10 (the code window
`[end_date - 7 days, end_date]` is inclusive on both ends, eight days), in
ascending date order, keeping ingestion order. -/
theorem weekly_window_selection_jan10 :
    weekly_digest_selection ⟨2025, 1, 10⟩ storeJan =
      [itemOfDay 3, itemOfDay 4, itemOfDay 5, itemOfDay 6, itemOfDay 7,
       itemOfDay 8, itemOfDay 9, itemOfDay 10] := by decide

/-- C5: when the store already holds `MAX_ARTICLES` items dated `today`, a
further collect call returns count 0 and leaves the store unchanged, no
matter what the feed would offer (the fetch outcome is arbitrary and is
never consulted). -/
theorem daily_cap_zero (today : String) (db : List Item)
    (fetched : Except FetchErr (List Item))
    (h : (db.filter (fun d => d.date == today)).length ≥ MAX_ARTICLES) :
    daily_collect today db fetched = (db, .ok 0) := by
  unfold daily_collect
  rw [if_pos h]

/-- Witness for C5 at a concrete full day. -/
theorem daily_cap_zero_witness :
    (capDb.filter (fun d => d.date == "2025-01-01")).length ≥ MAX_ARTICLES ∧
    daily_collect "2025-01-01" capDb (.ok [freshItem]) = (capDb, .ok 0) :=
  ⟨by decide, daily_cap_zero "2025-01-01" capDb (.ok [freshItem]) (by decide)⟩

/-- C8: a feed fetch failure leaves the item store exactly as it was, and
whenever the fetch was actually attempted (the daily cap not yet reached)
the run reports that error. -/
theorem fetch_failure_preserves_store (today : String) (db : List Item) (e : FetchErr) :
    (daily_collect today db (.error e)).1 = db ∧
    ((db.filter (fun d => d.date == today)).length < MAX_ARTICLES →
      daily_collect today db (.error e) = (db, .error e)) := by
  constructor
  · simp only [daily_collect]
    by_cases h : (List.filter (fun d => d.date == today) db).length ≥ MAX_ARTICLES
    · rw [if_pos h]
    · rw [if_neg h]
  · intro h
    simp only [daily_collect]
    rw [if_neg (by omega)]

/-- Witness for C8 on the empty store. -/
theorem fetch_failure_preserves_store_witness :
    (daily_collect "2025-01-01" [] (.error ⟨"timeout"⟩)).1 = [] ∧
    daily_collect "2025-01-01" [] (.error ⟨"timeout"⟩) = ([], .error ⟨"timeout"⟩) :=
  ⟨(fetch_failure_preserves_store "2025-01-01" [] ⟨"timeout"⟩).1,
   (fetch_failure_preserves_store "2025-01-01" [] ⟨"timeout"⟩).2 (by decide)⟩

/-- C6 (amended): for subscribers `[a, b, c]` and any per-address send
outcome, every address is attempted with its own outcome (one failure does
not abort the rest) and the subscriber store is returned unchanged —
subscriber records are bare email strings, and delivery never writes the
store (there is no `last_sent` field anywhere in the code). -/
theorem delivery_partial_failure (sendOk : String → Bool) (a b c : String) :
    send_weekly_email sendOk [a, b, c] =
      ([a, b, c], [(a, sendOk a), (b, sendOk b), (c, sendOk c)]) := rfl

/-- C6, as stated by the spec, is false on the code: with the send failing
exactly for `b@x.com`, delivery is attempted for all three and isolation
holds, but the subscriber store after the run is identical to the store
before — no subscriber record (in particular no `last_sent` field, which
does not exist) is updated for the successful sends. -/
theorem delivery_updates_no_record :
    send_weekly_email failB ["a@x.com", "b@x.com", "c@x.com"] =
      (["a@x.com", "b@x.com", "c@x.com"],
       [("a@x.com", true), ("b@x.com", false), ("c@x.com", true)]) := by decide

/-- C3 (amended): verification of a token under the secret that issued it
always succeeds; and a token issued under `s1` fails verification under
`s2` whenever the two secrets derive different tokens for that email —
which is the case for any ordinary secret rotation, but cannot hold for
*every* pair of distinct secrets, since infinitely many secrets map onto
finitely many 64-hex-digit tokens (see the counterexample theorem). -/
theorem token_roundtrip_and_secret_rotation :
    (∀ secret email, check_token secret email (make_token secret email) = .ok true) ∧
    (∀ s1 s2 email, make_token s1 email ≠ make_token s2 email →
      check_token s2 email (make_token s1 email) = .ok false) :=
  ⟨check_token_self, fun _ _ _ h => check_token_of_ne h⟩

/-- Witness for C3 at concrete secrets: the default secret verifies its own
token, and a token minted under the default secret fails under a rotated
secret. -/
theorem token_roundtrip_and_secret_rotation_witness :
    check_token "change-me-please" "A@B.com" (make_token "change-me-please" "A@B.com") = .ok true ∧
    check_token "new-secret" "a@b.com" (make_token "change-me-please" "a@b.com") = .ok false :=
  ⟨token_roundtrip_and_secret_rotation.1 "change-me-please" "A@B.com",
   token_roundtrip_and_secret_rotation.2 "change-me-please" "new-secret" "a@b.com" (by decide)⟩

/-- C4: the code is wrong where the claim (and the inline source comment
"ensure footer added only once") is right — the footer spliced in place of
`</body>` itself ends in `</body></html>`, so a second application of
`add_unsubscribe_footer` replaces that tag again and inserts a second
footer: applying it twice differs from applying it once. -/
theorem footer_not_idempotent :
    add_unsubscribe_footer "change-me-please"
        (add_unsubscribe_footer "change-me-please" "<html><body>Hi</body></html>" "a@b.com")
        "a@b.com" ≠
      add_unsubscribe_footer "change-me-please" "<html><body>Hi</body></html>" "a@b.com" := by
  decide

/-- C7, as stated by the spec, is false on the code: `hmac.compare_digest`
on `str` arguments requires both sides ASCII, so a token containing a
non-ASCII character makes `check_token` raise `TypeError` instead of
returning a boolean. -/
theorem check_token_nonascii_raises :
    check_token "change-me-please" "a@b.com" "café" = .error "TypeError" := by decide

/-- C7 (amended): for every email and every ASCII token string — any
length, hex or not — `check_token` returns a boolean without raising, and
that boolean is false on any mismatch (it is exactly whether the supplied
token equals the expected one). -/
theorem check_token_total_on_ascii (secret email token : String)
    (h : isAsciiStr token = true) :
    check_token secret email token = .ok (make_token secret email == token) := by
  unfold check_token compare_digest
  rw [make_token_ascii, h]
  simp

/-- Witness for C7 on a concrete malformed-but-ASCII token. -/
theorem check_token_total_on_ascii_witness :
    check_token "change-me-please" "a@b.com" "deadbeef" = .ok false := by
  rw [check_token_total_on_ascii "change-me-please" "a@b.com" "deadbeef" (by decide)]
  decide

/-- C1, as stated by the spec, is false on the code: a single collect call
over a feed whose two entries share one URL stores that URL twice — the
batch is filtered only against URLs already in the store, not against
itself. -/
theorem dedup_claim_false :
    (((daily_collect "2025-01-01" []
        (.ok (fetch_rss_items "2025-01-01" [dupEntryA, dupEntryB]))).1.map
          (fun i => i.url)).count "http://example.com/dup") = 2 := by decide

/-- C1 (amended): the cross-call half of the dedup invariant holds — URLs
already stored are never appended again, so re-ingesting an already-stored
URL adds nothing for it — and the store keeps all URLs distinct *provided*
each single fetched batch lists each URL at most once.  (Without that
proviso the invariant fails: see the counterexample theorem.) -/
theorem dedup_amended (today : String) (db items : List Item)
    (hdb : (db.map (fun i => i.url)).Nodup)
    (hit : (items.map (fun i => i.url)).Nodup) :
    (((daily_collect today db (.ok items)).1).map (fun i => i.url)).Nodup ∧
    ∀ u ∈ db.map (fun i => i.url),
      (((daily_collect today db (.ok items)).1).map (fun i => i.url)).count u =
        (db.map (fun i => i.url)).count u := by
  rcases daily_collect_ok_shape today db items with h | ⟨k, h⟩
  · rw [h]
    exact ⟨hdb, fun u _ => rfl⟩
  · rw [h]
    have hsub : ((items.filter
        (fun i => !((db.map (fun d => d.url)).contains i.url))).take k).Sublist items :=
      (List.take_sublist _ _).trans (List.filter_sublist _)
    have htail : (((items.filter
        (fun i => !((db.map (fun d => d.url)).contains i.url))).take k).map
          (fun i => i.url)).Nodup :=
      List.Nodup.sublist (hsub.map _) hit
    have hdisj : ∀ u ∈ ((items.filter
        (fun i => !((db.map (fun d => d.url)).contains i.url))).take k).map
          (fun i => i.url), u ∉ db.map (fun i => i.url) := by
      intro u hu
      rcases List.mem_map.mp hu with ⟨i, hiF, rfl⟩
      have hi := List.mem_of_mem_take hiF
      have hcont := (List.mem_filter.mp hi).2
      simp only [Bool.not_eq_true'] at hcont
      intro hmem
      have h2 := List.elem_eq_true_of_mem hmem
      have hcont2 : List.elem i.url (List.map (fun d => d.url) db) = false := hcont
      rw [hcont2] at h2
      cases h2
    rw [List.map_append]
    constructor
    · exact List.nodup_append.mpr ⟨hdb, htail, fun u hu hu2 => hdisj u hu2 hu⟩
    · intro u hu
      rw [List.count_append]
      have hz : ((((items.filter
          (fun i => !((db.map (fun d => d.url)).contains i.url))).take k).map
            (fun i => i.url)).count u) = 0 :=
        List.count_eq_zero.mpr (fun hmem => hdisj u hmem hu)
      rw [hz, Nat.add_zero]

/-- Witness for C1 (amended): one stored URL, a batch offering one fresh
and one already-stored URL — the result stays duplicate-free and the
count of the stored URL is unchanged. -/
theorem dedup_amended_witness :
    (((daily_collect "2025-01-01" dbW (.ok itemsW)).1).map (fun i => i.url)).Nodup ∧
    (((daily_collect "2025-01-01" dbW (.ok itemsW)).1).map (fun i => i.url)).count
        "http://u/0" = ((dbW.map (fun i => i.url)).count "http://u/0") :=
  ⟨(dedup_amended "2025-01-01" dbW itemsW (by decide) (by decide)).1,
   (dedup_amended "2025-01-01" dbW itemsW (by decide) (by decide)).2
     "http://u/0" (by decide)⟩

/-- C3, as stated by the spec, is false on the code: two *distinct* secrets
can issue identical tokens, because infinitely many secrets feed a
256-bit (64-hex-character) digest — by pigeonhole some two of the secrets
`"a"`, `"aa"`, `"aaa"`, … derive the same token for the same email, and a
token minted under the one then verifies under the other. -/
theorem token_secret_collision :
    ∃ s1 s2 : String, s1 ≠ s2 ∧
      check_token s2 "x@example.com" (make_token s1 "x@example.com") = .ok true := by
  have hfin : ∀ n : ℕ,
      digestVal (tokenDigest (secretN n) "x@example.com") < 256 ^ 32 := by
    intro n
    have h := digestVal_lt (tokenDigest_lt (secretN n) "x@example.com")
    rwa [tokenDigest_length] at h
  obtain ⟨m, -, n, -, hmn, hf⟩ := Set.infinite_univ.exists_ne_map_eq_of_mapsTo
    (show Set.MapsTo (fun k : ℕ => digestVal (tokenDigest (secretN k) "x@example.com"))
        Set.univ (Set.Iio (256 ^ 32)) from fun k _ => hfin k)
    (Set.finite_Iio _)
  have hdv : digestVal (tokenDigest (secretN m) "x@example.com") =
      digestVal (tokenDigest (secretN n) "x@example.com") := hf
  have hdig : tokenDigest (secretN m) "x@example.com" =
      tokenDigest (secretN n) "x@example.com" :=
    digestVal_inj (by rw [tokenDigest_length, tokenDigest_length])
      (tokenDigest_lt _ _) (tokenDigest_lt _ _) hdv
  refine ⟨secretN m, secretN n, fun hh => hmn (secretN_inj hh), ?_⟩
  rw [make_token_eq_of_digest _ _ _ hdig]
  exact check_token_self _ _

/-- C9: unsubscribe is verify-gated and atomic on rejection — the store can
change only when `check_token` returns true; a missing/empty email or
token is rejected as a bad request with the store unchanged; and whenever
verification does not succeed (mismatch or raised `TypeError`) the store
is unchanged and nothing is removed. -/
theorem unsubscribe_verify_gated (secret : String) (store : List String)
    (eArg tArg : Option String) :
    ((unsubscribeOp secret store eArg tArg).1 ≠ store →
      check_token secret (lowerStr (stripStr (eArg.getD ""))) (tArg.getD "") = .ok true) ∧
    ((lowerStr (stripStr (eArg.getD "")) == "" || tArg.getD "" == "") = true →
      unsubscribeOp secret store eArg tArg = (store, .badRequest)) ∧
    (check_token secret (lowerStr (stripStr (eArg.getD ""))) (tArg.getD "") ≠ .ok true →
      (unsubscribeOp secret store eArg tArg).1 = store ∧
      (unsubscribeOp secret store eArg tArg).2 ≠ .removed) := by
  by_cases hcond : (lowerStr (stripStr (eArg.getD "")) == "" || tArg.getD "" == "") = true
  · have hres : unsubscribeOp secret store eArg tArg = (store, .badRequest) := by
      simp only [unsubscribeOp]
      rw [if_pos hcond]
    refine ⟨fun hne => absurd (by rw [hres]) hne, fun _ => hres, fun _ => ?_⟩
    rw [hres]
    exact ⟨rfl, fun h => UnsubResult.noConfusion h⟩
  · rcases hck : check_token secret (lowerStr (stripStr (eArg.getD ""))) (tArg.getD "")
      with err | b
    · have hres : unsubscribeOp secret store eArg tArg = (store, .serverError) := by
        simp only [unsubscribeOp]
        rw [if_neg hcond, hck]
      refine ⟨fun hne => absurd (by rw [hres]) hne, fun hc => absurd hc hcond, fun _ => ?_⟩
      rw [hres]
      exact ⟨rfl, fun h => UnsubResult.noConfusion h⟩
    · cases b with
      | false =>
        have hres : unsubscribeOp secret store eArg tArg = (store, .forbidden) := by
          simp only [unsubscribeOp]
          rw [if_neg hcond, hck]
        refine ⟨fun hne => absurd (by rw [hres]) hne, fun hc => absurd hc hcond, fun _ => ?_⟩
        rw [hres]
        exact ⟨rfl, fun h => UnsubResult.noConfusion h⟩
      | true =>
        exact ⟨fun _ => rfl, fun hc => absurd hc hcond, fun hne => absurd rfl hne⟩

/-- Witness for C9: a missing email is a bad request leaving the store
intact; a wrong token leaves the store intact and removes nothing; a
store-changing run implies the token verified. -/
theorem unsubscribe_verify_gated_witness :
    unsubscribeOp "change-me-please" ["a@b.com"] none (some "sometoken") =
      (["a@b.com"], .badRequest) ∧
    ((unsubscribeOp "change-me-please" ["a@b.com"] (some "a@b.com") (some "zz")).1 =
      ["a@b.com"] ∧
     (unsubscribeOp "change-me-please" ["a@b.com"] (some "a@b.com") (some "zz")).2 ≠
      .removed) ∧
    check_token "change-me-please"
      (lowerStr (stripStr ((some "a@b.com").getD "")))
      ((some (make_token "change-me-please" "a@b.com")).getD "") = .ok true :=
  ⟨(unsubscribe_verify_gated "change-me-please" ["a@b.com"] none (some "sometoken")).2.1
     (by decide),
   (unsubscribe_verify_gated "change-me-please" ["a@b.com"] (some "a@b.com")
     (some "zz")).2.2 (by decide),
   (unsubscribe_verify_gated "change-me-please" ["a@b.com"] (some "a@b.com")
     (some (make_token "change-me-please" "a@b.com"))).1 (by decide)⟩

/-- C10: every store-writing operation persists `sorted(set(...))`, so any
operation sequence starting from the empty store — or from any store
already in `save_subs` form — leaves the subscriber store strictly sorted
and duplicate-free; and subscribing the same address twice, in any letter
case or surrounding whitespace, leaves exactly one (lowercased) entry. -/
theorem subscriber_store_invariant :
    (∀ ops : List SubOp, SortedSubs (runOps [] ops) ∧ (runOps [] ops).Nodup) ∧
    (∀ (store : List String) (ops : List SubOp), SortedSubs store →
      SortedSubs (runOps store ops) ∧ (runOps store ops).Nodup) ∧
    (∀ (store : List String) (e1 e2 : String), SortedSubs store →
      lowerStr (stripStr e1) = lowerStr (stripStr e2) →
      (lowerStr (stripStr e1) == "" ||
        !((lowerStr (stripStr e1)).data.contains '@')) = false →
      ((subscribe (subscribe store (some e1)).1 (some e2)).1.count
        (lowerStr (stripStr e1))) = 1) := by
  have hpres : ∀ (store : List String) (ops : List SubOp), SortedSubs store →
      SortedSubs (runOps store ops) ∧ (runOps store ops).Nodup := by
    intro store ops h
    have hs := runOps_sorted ops h
    exact ⟨hs, sortedSubs_nodup hs⟩
  refine ⟨fun ops => hpres [] ops (by simp), hpres, ?_⟩
  intro store e1 e2 hsort heq hvalid
  have hvalid2 : (lowerStr (stripStr e2) == "" ||
      !((lowerStr (stripStr e2)).data.contains '@')) = false := by
    rw [← heq]
    exact hvalid
  rw [subscribe_first hvalid]
  by_cases hc : store.contains (lowerStr (stripStr e1)) = true
  · rw [if_pos hc, subscribe_first hvalid2, ← heq, if_pos hc]
    exact List.count_eq_one_of_mem (sortedSubs_nodup hsort) (List.mem_of_elem_eq_true hc)
  · rw [if_neg hc]
    have hmem1 : lowerStr (stripStr e1) ∈ save_subs (store ++ [lowerStr (stripStr e1)]) :=
      mem_save_subs.mpr (by simp)
    have hc2 : (save_subs (store ++ [lowerStr (stripStr e1)])).contains
        (lowerStr (stripStr e1)) = true :=
      List.elem_eq_true_of_mem hmem1
    rw [subscribe_first hvalid2, ← heq, if_pos hc2]
    exact List.count_eq_one_of_mem (sortedSubs_nodup (save_subs_sorted _)) hmem1

/-- Witness for C10: a concrete operation sequence from the empty store and
from a sorted store, and a concrete double subscribe in two letter cases. -/
theorem subscriber_store_invariant_witness :
    (SortedSubs (runOps [] opsW) ∧ (runOps [] opsW).Nodup) ∧
    (SortedSubs (runOps ["a@x.com"] opsW) ∧ (runOps ["a@x.com"] opsW).Nodup) ∧
    ((subscribe (subscribe ["a@x.com"] (some "B@X.com")).1 (some " b@x.com ")).1.count
      (lowerStr (stripStr "B@X.com")) = 1) :=
  ⟨subscriber_store_invariant.1 opsW,
   subscriber_store_invariant.2.1 ["a@x.com"] opsW (by simp),
   subscriber_store_invariant.2.2 ["a@x.com"] "B@X.com" " b@x.com "
     (by simp) (by decide) (by decide)⟩

end NewsBot
